import Mathlib

/-!
Verification of the agent activity stream protocol of the AI-Onboarding
frontend: the SSE frame decoder and the step-reconstruction reducers.

Two call sites are embedded:
* the document-generation path (`DocViewer.generateDoc` / `handleStreamEvent`),
* the chat path (`ChatInterface.handleSubmit` in `video-viewer.tsx`).

JSON payloads are modelled by an inductive `Json`; the platform `JSON.parse`
is an external function and is modelled as a parameter
`p : String → Option Json` of the decoder (`none` = parse exception).
`crypto.randomUUID()` / `Date.now()` only ever serve as fresh, distinct
identifiers in this code, so they are modelled by a monotone counter
(`nextId`) threaded through the state.
-/

/-- JSON-like values as produced by `JSON.parse`. -/
inductive Json where
  | null
  | bool (b : Bool)
  | num (n : Int)
  | str (s : String)
  | arr (elems : List Json)
  | obj (fields : List (String × Json))

/-- JS property access `data.k` on an object; `none` models `undefined`. -/
def Json.get : Json → String → Option Json
  | .obj fields, k => fields.lookup k
  | _, _ => none

/-- Property access followed by the (unchecked) TS cast `as string`: all
recognized frames carry string payloads in these fields, so the model
returns `none` when the field is absent or not a string. -/
def Json.getStr (j : Json) (k : String) : Option String :=
  match j.get k with
  | some (.str s) => some s
  | _ => none

/-- `AgentStep.type` values (from the `AgentStep` interface in
`agent-activity.tsx`). -/
inductive StepType where
  | thinking
  | toolCall
  | toolResult
  | textStep
  | stepStart
  | stepFinish
deriving DecidableEq

/-- `AgentStep.status` values. -/
inductive StepStatus where
  | pending
  | running
  | completed
  | error
deriving DecidableEq

/-- One timeline entry, from the `AgentStep` interface: `id`, `type`,
`toolName?`, `toolCallId?`, `input?`, `output?`, `fullOutput?`, `text?`,
`timestamp`, `status`.  `id`/`toolCallId`/`timestamp` are fresh-counter
values standing in for `crypto.randomUUID()` / `Date.now()`. -/
structure AgentStep where
  id : Nat
  type : StepType
  toolName : Option String := none
  toolCallId : Option Nat := none
  input : Option Json := none
  output : Option Json := none
  fullOutput : Option Json := none
  text : Option String := none
  timestamp : Nat := 0
  status : StepStatus

/-- React state of `DocViewer` relevant to the stream: `agentSteps`,
`doc`, `error`, plus the fresh-identifier supply. -/
structure DocState where
  nextId : Nat := 0
  steps : List AgentStep := []
  doc : Option Json := none
  errorMsg : Option String := none

/-- `s.type === 'thinking'`. -/
def thinkingPred (s : AgentStep) : Bool := s.type == .thinking

/-- `s.type === 'tool-call' && s.status === 'running'` — the predicate of
the document path's `tool_result` correlation scan.  Note that it tests
neither the tool name nor any id from the frame. -/
def runToolCallPred (s : AgentStep) : Bool := s.type == .toolCall && s.status == .running

/-- The `status` case's new step:
`{type:'thinking', text:data.message, status:'running'}` plus the
generated `id`/`timestamp`. -/
def docNewThinking (data : Json) (n : Nat) : AgentStep :=
  { id := n, type := .thinking, text := data.getStr "message", timestamp := n,
    status := .running }

/-- The `tool_call` case's new step: `{type:'tool-call', toolName:data.tool,
input:data.args, status:'running', toolCallId:crypto.randomUUID()}` plus
the generated `id`/`timestamp`. -/
def docNewToolCall (data : Json) (n : Nat) : AgentStep :=
  { id := n, type := .toolCall, toolName := data.getStr "tool", input := data.get "args",
    toolCallId := some n, timestamp := n, status := .running }

/-- The `tool_result` resolution update:
`{...s, status:'completed', output:data.summary, fullOutput:data.output}`. -/
def docResultUpd (data : Json) (s : AgentStep) : AgentStep :=
  { s with status := .completed, output := data.get "summary",
           fullOutput := data.get "output" }

/-- The document path's `thinking` update: `{...s, text: data.text}` —
the new text REPLACES the old text. -/
def docThinkingUpd (data : Json) (s : AgentStep) : AgentStep :=
  { s with text := data.getStr "text" }

/-- The `complete` sweep: `{...s, status:'completed'}` for EVERY step. -/
def docCompleteUpd (s : AgentStep) : AgentStep := { s with status := .completed }

/-- The `error` sweep: `{...s, status:'error'}` for EVERY step. -/
def docErrorUpd (s : AgentStep) : AgentStep := { s with status := .error }

/-- `DocViewer.handleStreamEvent` (document-generation path).
Each case is a direct transcription:
* `status`: `addAgentStep({type:'thinking', text:data.message, status:'running'})`;
* `tool_call`: `addAgentStep({type:'tool-call', toolName:data.tool, input:data.args, status:'running', toolCallId:crypto.randomUUID()})`;
* `tool_result`: `[...prev].reverse().find(s => s.type==='tool-call' && s.status==='running')`,
  then map over all steps updating the one with that step's `id`;
* `thinking`: `[...prev].reverse().find(s => s.type==='thinking')`, then map
  updating that step's `id` with `text: data.text` (replacement);
* `complete`: `setDoc(data.document)`, all steps `completed`;
* `error`: `setError(data.message)`, all steps `error`. -/
def docHandle (event : String) (data : Json) (st : DocState) : DocState :=
  if event = "status" then
    { st with steps := st.steps ++ [docNewThinking data st.nextId], nextId := st.nextId + 1 }
  else if event = "tool_call" then
    { st with steps := st.steps ++ [docNewToolCall data st.nextId], nextId := st.nextId + 1 }
  else if event = "tool_result" then
    match st.steps.reverse.find? runToolCallPred with
    | some lastToolCall =>
        { st with steps := st.steps.map (fun s =>
            if s.id == lastToolCall.id then docResultUpd data s else s) }
    | none => st
  else if event = "thinking" then
    match st.steps.reverse.find? thinkingPred with
    | some lastThinking =>
        { st with steps := st.steps.map (fun s =>
            if s.id == lastThinking.id then docThinkingUpd data s else s) }
    | none => st
  else if event = "complete" then
    { st with doc := data.get "document", steps := st.steps.map docCompleteUpd }
  else if event = "error" then
    { st with errorMsg := data.getStr "message", steps := st.steps.map docErrorUpd }
  else st

/-- Reduce a whole frame sequence in the document path, from the initial
(empty) state. -/
def docRun (frames : List (String × Json)) : DocState :=
  frames.foldl (fun st f => docHandle f.1 f.2 st) {}

/-- The `catch` block of `DocViewer.generateDoc`: on any transport failure
it runs `setError(message)` and
`setAgentSteps(prev => prev.map(step => ({...step, status:'error'})))`. -/
def docTransportFailure (message : String) (st : DocState) : DocState :=
  { st with errorMsg := some message,
            steps := st.steps.map (fun s => { s with status := .error }) }

/-- Replace the first element satisfying `p` by its `u`-update, leave the
rest unchanged.  This is `findIndex` + in-place assignment as used by the
chat `thinking` case (`steps[thinkingIdx] = {...}`). -/
def updateFirst (p : AgentStep → Bool) (u : AgentStep → AgentStep) :
    List AgentStep → List AgentStep
  | [] => []
  | s :: rest => if p s then u s :: rest else s :: updateFirst p u rest

/-- Replace the last element satisfying `p` by its `u`-update, leave the
rest unchanged.  This is the chat `tool_result` backwards `for` loop with
`break`: the scan from `steps.length - 1` down to `0` updates exactly the
last matching element. -/
def updateLast (p : AgentStep → Bool) (u : AgentStep → AgentStep) :
    List AgentStep → List AgentStep
  | [] => []
  | s :: rest =>
      if rest.any p then s :: updateLast p u rest
      else if p s then u s :: rest
      else s :: rest

/-- Local state of one `ChatInterface.handleSubmit` session:
`const steps: AgentStep[] = []`, `let assistantContent = ''`, the
`sessionId` React state, plus the fresh-identifier supply. -/
structure ChatState where
  nextId : Nat := 0
  steps : List AgentStep := []
  content : String := ""
  sessionId : Option String := none

/-- The chat `thinking` append:
`{...s, text: (s.text || '') + data.text}`. -/
def chatThinkingUpd (data : Json) (s : AgentStep) : AgentStep :=
  { s with text := some (s.text.getD "" ++ (data.getStr "text").getD "") }

/-- The chat `thinking` case's new step (`id: thinking-${Date.now()}`). -/
def chatNewThinking (data : Json) (n : Nat) : AgentStep :=
  { id := n, type := .thinking, text := data.getStr "text", timestamp := n,
    status := .running }

/-- The chat `tool_call` case's new step. -/
def chatNewToolCall (data : Json) (n : Nat) : AgentStep :=
  { id := n, type := .toolCall, toolName := data.getStr "tool", input := data.get "args",
    timestamp := n, status := .running }

/-- `s.type === 'tool-call' && s.toolName === data.tool && s.status === 'running'`
— the chat path's name-based correlation predicate. -/
def chatResultPred (data : Json) (s : AgentStep) : Bool :=
  s.type == .toolCall && s.toolName == data.getStr "tool" && s.status == .running

/-- The chat `tool_result` update:
`{...s, output:data.summary, fullOutput:data.output, status:'completed'}`. -/
def chatResultUpd (data : Json) (s : AgentStep) : AgentStep :=
  { s with output := data.get "summary", fullOutput := data.get "output",
           status := .completed }

/-- The chat `complete` sweep:
`if (s.status === 'running') s.status = 'completed'`. -/
def chatCompleteUpd (s : AgentStep) : AgentStep :=
  if s.status == .running then { s with status := .completed } else s

/-- The `switch (currentEvent)` of `ChatInterface.handleSubmit` (chat path).
Case by case:
* `session`: `if (data.sessionId && data.sessionId !== sessionId) setSessionId(data.sessionId)`;
* `thinking`: `steps.findIndex(s => s.type === 'thinking')`; if found,
  `steps[idx] = {...steps[idx], text: (steps[idx].text || '') + data.text}`
  (the FIRST thinking step, APPEND); else push a new running thinking step;
* `tool_call`: push a new running `tool-call` step with `toolName: data.tool`,
  `input: data.args`;
* `tool_result`: backwards scan for the last running `tool-call` whose
  `toolName === data.tool`, set `output: data.summary`,
  `fullOutput: data.output`, status `completed`, then `break`;
* `text`: `assistantContent += data.text`;
* `complete`: `steps.forEach(s => { if (s.status === 'running') s.status = 'completed'; })`
  (the message additionally receives the steps with thinking steps filtered
  out — a presentation-time filter, not part of the timeline state);
* `error`: `console.error` only — no state change (same as unknown labels). -/
def chatHandle (event : String) (data : Json) (st : ChatState) : ChatState :=
  if event = "session" then
    match data.getStr "sessionId" with
    | some sid =>
        if sid ≠ "" ∧ st.sessionId ≠ some sid then { st with sessionId := some sid } else st
    | none => st
  else if event = "thinking" then
    if st.steps.any thinkingPred then
      { st with steps := updateFirst thinkingPred (chatThinkingUpd data) st.steps }
    else
      { st with steps := st.steps ++ [chatNewThinking data st.nextId],
                nextId := st.nextId + 1 }
  else if event = "tool_call" then
    { st with steps := st.steps ++ [chatNewToolCall data st.nextId],
              nextId := st.nextId + 1 }
  else if event = "tool_result" then
    { st with steps := updateLast (chatResultPred data) (chatResultUpd data) st.steps }
  else if event = "text" then
    { st with content := st.content ++ (data.getStr "text").getD "" }
  else if event = "complete" then
    { st with steps := st.steps.map chatCompleteUpd }
  else st

/-- Reduce a whole frame sequence in the chat path, from the initial
(empty) session state. -/
def chatRun (frames : List (String × Json)) : ChatState :=
  frames.foldl (fun st f => chatHandle f.1 f.2 st) {}

/-! ## Frame decoder (document path)

JS strings are modelled as `List Char`; `buffer.split('\n')`,
`line.startsWith(pre)` and `line.slice(n)` become `splitOnNl`,
`List.isPrefixOf` and `List.drop`.  The platform `JSON.parse` is a
parameter `p`; `p s = none` models the parse exception caught by
`catch { /* ignore parse errors */ }`. -/

/-- Shorthand: the character sequence of a string literal. -/
def lc (s : String) : List Char := s.data

/-- JS `str.split('\n')`: always returns at least one (possibly empty)
piece; a trailing newline yields a trailing empty piece. -/
def splitOnNl : List Char → List (List Char)
  | [] => [[]]
  | c :: rest =>
      match splitOnNl rest with
      | line :: lines => if c = '\n' then [] :: line :: lines else (c :: line) :: lines
      | [] => [[]]

/-- The `for (const line of lines)` body of `DocViewer.generateDoc`:
`event: ` lines set `eventType`, `data: ` lines with a non-empty
`eventType` are parsed (a parse failure is swallowed) and reset
`eventType` to `''`; every other line leaves `eventType` unchanged.
Returns the emitted `(eventType, payload)` frames in order. -/
def docDecodeLines (p : List Char → Option Json) :
    List (List Char) → List Char → List (List Char × Json)
  | [], _ => []
  | line :: rest, eventType =>
      if List.isPrefixOf (lc "event: ") line then
        docDecodeLines p rest (line.drop 7)
      else if List.isPrefixOf (lc "data: ") line ∧ eventType ≠ [] then
        match p (line.drop 6) with
        | some j => (eventType, j) :: docDecodeLines p rest []
        | none => docDecodeLines p rest []
      else docDecodeLines p rest eventType

/-- One iteration of the `while (true)` read loop of
`DocViewer.generateDoc`: append the chunk to the carry-over buffer, split
on newlines, keep the last (unterminated) piece as the new buffer
(`buffer = lines.pop() || ''`), and process the complete lines.  Note that
`let eventType = ''` is declared inside the loop body, so the label state
does NOT carry over from one chunk to the next. -/
def docFeedChunk (p : List Char → Option Json) (buffer chunk : List Char) :
    List Char × List (List Char × Json) :=
  let lines := splitOnNl (buffer ++ chunk)
  (lines.getLastD [], docDecodeLines p lines.dropLast [])

/-- Feed a sequence of byte chunks through the document-path read loop,
starting from the empty buffer; returns the final buffer and all emitted
frames in order. -/
def docFeedAll (p : List Char → Option Json) (chunks : List (List Char)) :
    List Char × List (List Char × Json) :=
  chunks.foldl (fun acc c =>
    let r := docFeedChunk p acc.1 c
    (r.1, acc.2 ++ r.2)) ([], [])

/-- A concrete stand-in for the platform `JSON.parse`, used only to
instantiate decoder theorems at specific inputs: it parses the two-byte
text `\x7b\x7d` (an empty JSON object) and fails on everything else —
in particular on the lone byte `\x7b`, on which `JSON.parse` also throws. -/
def testParse : List Char → Option Json :=
  fun s => if s = lc "\x7b\x7d" then some (Json.obj []) else none

/-! ## Frame constructors for concrete scenarios -/

/-- A `status` frame with a `message` payload. -/
def statusFrame (m : String) : String × Json :=
  ("status", Json.obj [("message", Json.str m)])

/-- A `thinking` frame with a `text` payload. -/
def thinkingFrame (t : String) : String × Json :=
  ("thinking", Json.obj [("text", Json.str t)])

/-- A `tool_call` frame with `tool`, `args` and `id` payload fields. -/
def toolCallFrame (tool : String) (idn : Int) : String × Json :=
  ("tool_call", Json.obj [("tool", Json.str tool), ("args", Json.obj []), ("id", Json.num idn)])

/-- A `tool_result` frame with `tool`, `id`, `summary` and `output`
payload fields. -/
def toolResultFrame (tool : String) (idn : Int) (summary outp : String) : String × Json :=
  ("tool_result", Json.obj [("tool", Json.str tool), ("id", Json.num idn),
    ("summary", Json.str summary), ("output", Json.str outp)])

/-- A `complete` frame carrying a `document` payload. -/
def completeFrame : String × Json :=
  ("complete", Json.obj [("document", Json.obj [])])

/-- An `error` frame with a `message` payload. -/
def errorFrame (m : String) : String × Json :=
  ("error", Json.obj [("message", Json.str m)])

/-- Projection of a step's `output` field to its string value, for stating
concrete-scenario results without comparing whole `Json` trees. -/
def outSummary (s : AgentStep) : Option String :=
  match s.output with
  | some (.str t) => some t
  | _ => none

/-- The two-running-actions ambiguity scenario of the spec:
`start(A, tool=x, id=1)`, `start(B, tool=x, id=2)`, `result(tool=x, id=1)`. -/
def c1Frames : List (String × Json) :=
  [toolCallFrame "x" 1, toolCallFrame "x" 2, toolResultFrame "x" 1 "done" "full"]


/-- A concrete running tool-call step (used to instantiate correlation
theorems). -/
def c10A : AgentStep := { id := 0, type := .toolCall, toolName := some "x", status := .running }

/-- A second concrete running tool-call step with the same tool name. -/
def c10B : AgentStep := { id := 1, type := .toolCall, toolName := some "x", status := .running }

/-- A document-path state holding the two running tool-call steps. -/
def c10St : DocState := { nextId := 2, steps := [c10A, c10B] }

/-- A concrete `tool_result` payload. -/
def c10D : Json :=
  Json.obj [("tool", Json.str "x"), ("summary", Json.str "ok"), ("output", Json.str "full")]

/-! ## Definitional shape lemmas

Each reducer dispatches on the event label with a chain of string
comparisons; these lemmas record the (definitional) value of each branch. -/

theorem docHandle_status (d : Json) (st : DocState) :
    docHandle "status" d st =
      { st with steps := st.steps ++ [docNewThinking d st.nextId],
                nextId := st.nextId + 1 } := rfl

theorem docHandle_toolCall (d : Json) (st : DocState) :
    docHandle "tool_call" d st =
      { st with steps := st.steps ++ [docNewToolCall d st.nextId],
                nextId := st.nextId + 1 } := rfl

theorem docHandle_toolResult (d : Json) (st : DocState) :
    docHandle "tool_result" d st =
      (match st.steps.reverse.find? runToolCallPred with
       | some lastToolCall =>
           { st with steps := st.steps.map (fun s =>
               if s.id == lastToolCall.id then docResultUpd d s else s) }
       | none => st) := rfl

theorem docHandle_complete (d : Json) (st : DocState) :
    docHandle "complete" d st =
      { st with doc := d.get "document", steps := st.steps.map docCompleteUpd } := rfl

theorem docHandle_error (d : Json) (st : DocState) :
    docHandle "error" d st =
      { st with errorMsg := d.getStr "message", steps := st.steps.map docErrorUpd } := rfl

theorem chatHandle_session (d : Json) (st : ChatState) :
    chatHandle "session" d st =
      (match d.getStr "sessionId" with
       | some sid =>
           if sid ≠ "" ∧ st.sessionId ≠ some sid then { st with sessionId := some sid } else st
       | none => st) := rfl

theorem chatHandle_thinking (d : Json) (st : ChatState) :
    chatHandle "thinking" d st =
      (if st.steps.any thinkingPred then
        { st with steps := updateFirst thinkingPred (chatThinkingUpd d) st.steps }
      else
        { st with steps := st.steps ++ [chatNewThinking d st.nextId],
                  nextId := st.nextId + 1 }) := rfl

theorem chatHandle_toolCall (d : Json) (st : ChatState) :
    chatHandle "tool_call" d st =
      { st with steps := st.steps ++ [chatNewToolCall d st.nextId],
                nextId := st.nextId + 1 } := rfl

theorem chatHandle_toolResult (d : Json) (st : ChatState) :
    chatHandle "tool_result" d st =
      { st with steps := updateLast (chatResultPred d) (chatResultUpd d) st.steps } := rfl

theorem chatHandle_text (d : Json) (st : ChatState) :
    chatHandle "text" d st =
      { st with content := st.content ++ (d.getStr "text").getD "" } := rfl

theorem chatHandle_complete (d : Json) (st : ChatState) :
    chatHandle "complete" d st = { st with steps := st.steps.map chatCompleteUpd } := rfl

theorem chatHandle_other (e : String) (d : Json) (st : ChatState)
    (h1 : e ≠ "session") (h2 : e ≠ "thinking") (h3 : e ≠ "tool_call")
    (h4 : e ≠ "tool_result") (h5 : e ≠ "text") (h6 : e ≠ "complete") :
    chatHandle e d st = st := by
  unfold chatHandle
  rw [if_neg h1, if_neg h2, if_neg h3, if_neg h4, if_neg h5, if_neg h6]

/-! ## Generic list helpers -/

theorem foldl_preserves {σ α : Type} (f : σ → α → σ) (inv : σ → Prop)
    (h : ∀ s a, inv s → inv (f s a)) :
    ∀ (l : List α) (s : σ), inv s → inv (l.foldl f s) := by
  intro l
  induction l with
  | nil => intro s hs; exact hs
  | cons a t ih => intro s hs; exact ih _ (h s a hs)

theorem countP_updateFirst (p : AgentStep → Bool) (u : AgentStep → AgentStep)
    (q : AgentStep → Bool) (hq : ∀ s, q (u s) = q s) :
    ∀ l, (updateFirst p u l).countP q = l.countP q := by
  intro l
  induction l with
  | nil => rfl
  | cons s t ih =>
    unfold updateFirst
    cases hps : p s <;> simp [List.countP_cons, hq, ih]

theorem countP_updateLast (p : AgentStep → Bool) (u : AgentStep → AgentStep)
    (q : AgentStep → Bool) (hq : ∀ s, q (u s) = q s) :
    ∀ l, (updateLast p u l).countP q = l.countP q := by
  intro l
  induction l with
  | nil => rfl
  | cons s t ih =>
    unfold updateLast
    cases ha : t.any p <;> cases hps : p s <;> simp [List.countP_cons, hq, ih]

theorem all_updateFirst (p : AgentStep → Bool) (u : AgentStep → AgentStep)
    (q : AgentStep → Bool) (hq : ∀ s, q s = true → q (u s) = true) :
    ∀ l, l.all q = true → (updateFirst p u l).all q = true := by
  intro l
  induction l with
  | nil => intro h; exact h
  | cons s t ih =>
    intro h
    rw [List.all_cons, Bool.and_eq_true] at h
    unfold updateFirst
    cases hps : p s
    · simp [List.all_cons, h.1, ih h.2]
    · simp [List.all_cons, hq s h.1, h.2]

theorem all_updateLast (p : AgentStep → Bool) (u : AgentStep → AgentStep)
    (q : AgentStep → Bool) (hq : ∀ s, q s = true → q (u s) = true) :
    ∀ l, l.all q = true → (updateLast p u l).all q = true := by
  intro l
  induction l with
  | nil => intro h; exact h
  | cons s t ih =>
    intro h
    rw [List.all_cons, Bool.and_eq_true] at h
    unfold updateLast
    cases ha : t.any p
    · cases hps : p s
      · simp [List.all_cons, h.1, h.2]
      · simp [List.all_cons, hq s h.1, h.2]
    · simp [List.all_cons, h.1, ih h.2]

theorem map_update_id_eq_self (b : AgentStep) (u : AgentStep → AgentStep) :
    ∀ (l : List AgentStep), b.id ∉ l.map AgentStep.id →
      l.map (fun s => if s.id == b.id then u s else s) = l := by
  intro l
  induction l with
  | nil => intro _; rfl
  | cons a t ih =>
    intro h
    rw [List.map_cons, List.mem_cons, not_or] at h
    have hne : ¬ ((a.id == b.id) = true) := by
      simp only [beq_iff_eq]
      exact fun hh => h.1 hh.symm
    show (if (a.id == b.id) = true then u a else a) ::
        t.map (fun s => if s.id == b.id then u s else s) = a :: t
    rw [if_neg hne, ih h.2]

/-- Every chat reduction step changes the step list in one of six ways:
not at all, a thinking push (only when no thinking step exists), a
tool-call push, the first-thinking text append, the last-matching
tool-result resolution, or the `complete` sweep. -/
theorem chatHandle_steps_shape (e : String) (d : Json) (st : ChatState) :
    (chatHandle e d st).steps = st.steps ∨
    (st.steps.any thinkingPred = false ∧
      (chatHandle e d st).steps = st.steps ++ [chatNewThinking d st.nextId]) ∨
    (chatHandle e d st).steps = st.steps ++ [chatNewToolCall d st.nextId] ∨
    (chatHandle e d st).steps = updateFirst thinkingPred (chatThinkingUpd d) st.steps ∨
    (chatHandle e d st).steps = updateLast (chatResultPred d) (chatResultUpd d) st.steps ∨
    (chatHandle e d st).steps = st.steps.map chatCompleteUpd := by
  by_cases h1 : e = "session"
  · subst h1
    left
    rw [chatHandle_session]
    split
    · split <;> rfl
    · rfl
  by_cases h2 : e = "thinking"
  · subst h2
    rw [chatHandle_thinking]
    cases hany : st.steps.any thinkingPred
    · exact Or.inr (Or.inl ⟨rfl, rfl⟩)
    · exact Or.inr (Or.inr (Or.inr (Or.inl rfl)))
  by_cases h3 : e = "tool_call"
  · subst h3
    right; right; left
    rw [chatHandle_toolCall]
  by_cases h4 : e = "tool_result"
  · subst h4
    right; right; right; right; left
    rw [chatHandle_toolResult]
  by_cases h5 : e = "text"
  · subst h5
    left
    rw [chatHandle_text]
  by_cases h6 : e = "complete"
  · subst h6
    right; right; right; right; right
    rw [chatHandle_complete]
  · left
    rw [chatHandle_other e d st h1 h2 h3 h4 h5 h6]

/-! ## Decoder step lemmas -/

theorem docDecodeLines_event (p : List Char → Option Json) (line : List Char)
    (rest : List (List Char)) (ev : List Char)
    (h : List.isPrefixOf (lc "event: ") line = true) :
    docDecodeLines p (line :: rest) ev = docDecodeLines p rest (line.drop 7) := by
  rw [docDecodeLines, if_pos h]

theorem docDecodeLines_data_fail (p : List Char → Option Json) (line : List Char)
    (rest : List (List Char)) (ev : List Char)
    (h1 : List.isPrefixOf (lc "event: ") line = false)
    (h2 : List.isPrefixOf (lc "data: ") line = true)
    (hev : ev ≠ [])
    (hp : p (line.drop 6) = none) :
    docDecodeLines p (line :: rest) ev = docDecodeLines p rest [] := by
  rw [docDecodeLines, if_neg (by simp [h1]), if_pos ⟨h2, hev⟩, hp]

theorem docDecodeLines_skip (p : List Char → Option Json) (line : List Char)
    (rest : List (List Char)) (ev : List Char)
    (h1 : List.isPrefixOf (lc "event: ") line = false)
    (h2 : ¬ (List.isPrefixOf (lc "data: ") line = true ∧ ev ≠ [])) :
    docDecodeLines p (line :: rest) ev = docDecodeLines p rest ev := by
  rw [docDecodeLines, if_neg (by simp [h1]), if_neg h2]

theorem all_map_of (f : AgentStep → AgentStep) (q : AgentStep → Bool)
    (h : ∀ s, q (f s) = true) : ∀ l : List AgentStep, (l.map f).all q = true := by
  intro l
  induction l with
  | nil => rfl
  | cons a t ih =>
    rw [List.map_cons, List.all_cons, h a, ih]
    rfl

theorem all_map_imp (f : AgentStep → AgentStep) (q r : AgentStep → Bool)
    (h : ∀ s, r s = true → q (f s) = true) :
    ∀ l : List AgentStep, l.all r = true → (l.map f).all q = true := by
  intro l
  induction l with
  | nil => intro _; rfl
  | cons a t ih =>
    intro hl
    rw [List.all_cons, Bool.and_eq_true] at hl
    rw [List.map_cons, List.all_cons, h a hl.1, ih hl.2]
    rfl

/-! ## Claims -/

/-- C1, counterexample: on the spec's ambiguity scenario
`[start(A, tool=x, id=1), start(B, tool=x, id=2), result(tool=x, id=1)]`,
the document-path reducer does NOT resolve step A: the final statuses are
`[running, completed]` (A still running, B resolved), not
`[completed, running]` as the claim requires. -/
theorem C1_counterexample :
    (docRun c1Frames).steps.map AgentStep.status ≠
      [StepStatus.completed, StepStatus.running] ∧
    (docRun c1Frames).steps.map AgentStep.status =
      [StepStatus.running, StepStatus.completed] := by
  constructor
  · decide
  · rfl

/-- C1, amended: reducing `result(tool=x, id=1)` resolves exactly step B —
the most recently created still-running action step — setting its status
to `completed` and its output from the frame's `summary`; step A remains
`running`.  The frame's `id` field is ignored by both call sites (the
document path matches any running tool-call, the chat path matches by
tool name and recency, and both pick the newest). -/
theorem C1_amended :
    (docRun c1Frames).steps.map (fun s => (s.status, outSummary s)) =
      [(.running, none), (.completed, some "done")] ∧
    (chatRun c1Frames).steps.map (fun s => (s.status, outSummary s)) =
      [(.running, none), (.completed, some "done")] :=
  ⟨rfl, rfl⟩

/-- C2: the decoder read loop loses a frame when the chunk boundary falls
between the label line and the data line, because `let eventType = ''` is
re-initialised on every chunk.  Feeding
`event: status\ndata: \x7b\x7d\n\n` unsplit yields the one expected
frame; feeding it split after the label line's newline yields no frame at
all — contradicting the claim that every split yields the same single
frame. -/
theorem C2_theorem (p : List Char → Option Json) (j : Json)
    (h : p (lc "\x7b\x7d") = some j) :
    (docFeedAll p [lc "event: status\ndata: \x7b\x7d\n\n"]).2 = [(lc "status", j)] ∧
    (docFeedAll p [lc "event: status\n", lc "data: \x7b\x7d\n\n"]).2 = [] := by
  refine ⟨?_, rfl⟩
  have e1 : (docFeedAll p [lc "event: status\ndata: \x7b\x7d\n\n"]).2 =
      (match p (lc "\x7b\x7d") with
       | some j0 => [(lc "status", j0)]
       | none => []) := rfl
  rw [e1, h]

/-- C2, witness: the two evaluations at the concrete stand-in parser. -/
theorem C2_witness :
    (docFeedAll testParse [lc "event: status\ndata: \x7b\x7d\n\n"]).2 =
      [(lc "status", Json.obj [])] ∧
    (docFeedAll testParse [lc "event: status\n", lc "data: \x7b\x7d\n\n"]).2 = [] :=
  C2_theorem testParse (Json.obj []) rfl

/-- C3, counterexample: a step already `completed` before the error frame
does NOT stay `completed`: the document path's `error` case maps EVERY
step to `error`, including completed ones. -/
theorem C3_counterexample :
    (docRun [toolCallFrame "x" 1, toolResultFrame "x" 1 "done" "full"]).steps.map
      AgentStep.status = [.completed] ∧
    (docRun [toolCallFrame "x" 1, toolResultFrame "x" 1 "done" "full",
      errorFrame "boom"]).steps.map AgentStep.status = [.error] ∧
    StepStatus.error ≠ .completed :=
  ⟨rfl, rfl, by decide⟩

/-- C3, amended: after a session-error frame, in the document path EVERY
step (including previously completed ones) has status `error`; in the
chat path the error frame changes nothing at all (running steps remain
running). -/
theorem C3_amended :
    (∀ (d : Json) (st : DocState),
      ((docHandle "error" d st).steps.all fun s => s.status == .error) = true) ∧
    (∀ (d : Json) (st : ChatState), chatHandle "error" d st = st) := by
  constructor
  · intro d st
    rw [docHandle_error]
    exact all_map_of _ _ (fun s => rfl) st.steps
  · intro d st
    rfl

/-- C4, counterexample: after two `status` frames the document-path
timeline holds two thinking steps that are BOTH still `running`: the
older thinking step has not left the running status although a newer one
was created. -/
theorem C4_counterexample :
    ((docRun [statusFrame "a", statusFrame "b"]).steps.map fun s => (s.type, s.status)) =
      [(.thinking, .running), (.thinking, .running)] ∧
    ((docRun [statusFrame "a", statusFrame "b"]).steps.countP fun s =>
      s.type == .thinking && s.status == .running) = 2 ∧
    ¬ ((2 : Nat) ≤ 1) :=
  ⟨rfl, rfl, by decide⟩

/-- C4, amended: in the chat path at most one thinking step ever exists in
a reachable timeline (so at most one is live); in the document path every
`status` frame creates a fresh running thinking step and older thinking
steps stay `running` (two concurrent live thinking steps after two status
frames). -/
theorem C4_amended :
    (∀ frames : List (String × Json), (chatRun frames).steps.countP thinkingPred ≤ 1) ∧
    (docRun [statusFrame "a", statusFrame "b"]).steps.countP thinkingPred = 2 := by
  constructor
  · intro frames
    have hstep : ∀ (st : ChatState) (f : String × Json),
        st.steps.countP thinkingPred ≤ 1 →
        (chatHandle f.1 f.2 st).steps.countP thinkingPred ≤ 1 := by
      intro st f h
      rcases chatHandle_steps_shape f.1 f.2 st with hs | ⟨hany, hs⟩ | hs | hs | hs | hs
      · rw [hs]; exact h
      · rw [hs, List.countP_append]
        have h0 : st.steps.countP thinkingPred = 0 := by
          rw [List.countP_eq_zero]
          intro a ha hq
          have : st.steps.any thinkingPred = true := List.any_eq_true.mpr ⟨a, ha, hq⟩
          rw [hany] at this
          exact absurd this (by decide)
        have h1 : List.countP thinkingPred [chatNewThinking f.2 st.nextId] = 1 := rfl
        rw [h0, h1]
      · rw [hs, List.countP_append]
        have h1 : List.countP thinkingPred [chatNewToolCall f.2 st.nextId] = 0 := rfl
        rw [h1]
        simpa using h
      · rw [hs,
          countP_updateFirst thinkingPred (chatThinkingUpd f.2) thinkingPred (fun s => rfl)]
        exact h
      · rw [hs,
          countP_updateLast (chatResultPred f.2) (chatResultUpd f.2) thinkingPred
            (fun s => rfl)]
        exact h
      · rw [hs, List.countP_map]
        have hcongr : st.steps.countP (thinkingPred ∘ chatCompleteUpd) =
            st.steps.countP thinkingPred := by
          apply List.countP_congr
          intro a _
          have hua : thinkingPred (chatCompleteUpd a) = thinkingPred a := by
            unfold chatCompleteUpd
            split <;> rfl
          simp only [Function.comp_apply, hua]
        rw [hcongr]
        exact h
    exact foldl_preserves _ (fun st => st.steps.countP thinkingPred ≤ 1)
      (fun s a hh => hstep s a hh) frames {} (by decide)
  · rfl

/-- C5, counterexample: the two `status` frames `"Exploring"` then
`"Reading src/"` do NOT yield one thinking step at either call site: the
document path creates two thinking steps, and the chat path (which has no
`status` case at all) creates none. -/
theorem C5_counterexample :
    (docRun [statusFrame "Exploring", statusFrame "Reading src/"]).steps.length = 2 ∧
    (chatRun [statusFrame "Exploring", statusFrame "Reading src/"]).steps.length = 0 ∧
    (2 : Nat) ≠ 1 ∧ (0 : Nat) ≠ 1 :=
  ⟨rfl, rfl, by decide, by decide⟩

/-- C5, amended: the REPLACE/APPEND accumulation applies to `thinking`
frames, not `status` frames.  `status("Exploring")` then
`thinking("Reading src/")` yields one thinking step with text
`"Reading src/"` in the document path (REPLACE), and
`thinking("Exploring")` then `thinking("Reading src/")` yields one
thinking step with text `"ExploringReading src/"` in the chat path
(APPEND). -/
theorem C5_amended :
    ((docRun [statusFrame "Exploring", thinkingFrame "Reading src/"]).steps.map fun s =>
      (s.type, s.text)) = [(.thinking, some "Reading src/")] ∧
    ((chatRun [thinkingFrame "Exploring", thinkingFrame "Reading src/"]).steps.map fun s =>
      (s.type, s.text)) = [(.thinking, some "ExploringReading src/")] :=
  ⟨rfl, rfl⟩

/-- C6, counterexample: a `status` frame arriving after a `complete` frame
is NOT ignored: it appends a new step to the document-path timeline. -/
theorem C6_counterexample :
    (docRun [statusFrame "a", completeFrame]).steps.length = 1 ∧
    (docRun [statusFrame "a", completeFrame, statusFrame "b"]).steps.length = 2 ∧
    (2 : Nat) ≠ 1 :=
  ⟨rfl, rfl, by decide⟩

/-- C6, amended: the reducers keep no terminal flag; frames arriving after
a `complete` (or `error`) frame are processed by the ordinary rules — in
particular, in the document path a `status` frame after a `complete`
frame always appends one new running thinking step. -/
theorem C6_amended :
    ∀ (st : DocState) (d d2 : Json),
      (docHandle "status" d2 (docHandle "complete" d st)).steps =
        (docHandle "complete" d st).steps ++
          [docNewThinking d2 (docHandle "complete" d st).nextId] ∧
      (docNewThinking d2 (docHandle "complete" d st).nextId).status = .running := by
  intro st d d2
  exact ⟨by rw [docHandle_status], rfl⟩

/-- C7, counterexample: the document path's transport-failure handler does
NOT leave the timeline as last reduced: it flips a running step to
`error`. -/
theorem C7_counterexample :
    (docRun [statusFrame "a"]).steps.map AgentStep.status = [.running] ∧
    (docTransportFailure "Failed to generate documentation"
      (docRun [statusFrame "a"])).steps.map AgentStep.status = [.error] ∧
    StepStatus.error ≠ .running :=
  ⟨rfl, rfl, by decide⟩

/-- C7, amended: on a transport failure without a terminal frame, the
document path's catch block modifies the timeline: it sets EVERY step's
status to `error` and records the failure message as the session error —
the same sweep as an explicit `error` frame, not an untouched timeline. -/
theorem C7_amended :
    ∀ (m : String) (st : DocState),
      ((docTransportFailure m st).steps.all fun s => s.status == .error) = true ∧
      (docTransportFailure m st).errorMsg = some m := by
  intro m st
  exact ⟨all_map_of _ _ (fun s => rfl) st.steps, rfl⟩

/-- C8, confirmed: after a `complete` frame no step is `running` or
`pending`.  In the document path this holds for every state (the sweep
sets every step to `completed` unconditionally); in the chat path it
holds for every reachable timeline (steps are only ever created
`running`, so the running-to-completed sweep leaves no running or pending
step). -/
theorem C8_theorem :
    (∀ (d : Json) (st : DocState),
      ((docHandle "complete" d st).steps.all fun s =>
        !(s.status == .running) && !(s.status == .pending)) = true) ∧
    (∀ (frames : List (String × Json)) (d : Json),
      ((chatHandle "complete" d (chatRun frames)).steps.all fun s =>
        !(s.status == .running) && !(s.status == .pending)) = true) := by
  constructor
  · intro d st
    rw [docHandle_complete]
    exact all_map_of _ _ (fun s => rfl) st.steps
  · intro frames d
    have hinv : ((chatRun frames).steps.all fun s =>
        s.status == .running || s.status == .completed) = true := by
      have hstep : ∀ (st : ChatState) (f : String × Json),
          (st.steps.all fun s => s.status == .running || s.status == .completed) = true →
          ((chatHandle f.1 f.2 st).steps.all fun s =>
            s.status == .running || s.status == .completed) = true := by
        intro st f h
        rcases chatHandle_steps_shape f.1 f.2 st with hs | ⟨_, hs⟩ | hs | hs | hs | hs
        · rw [hs]; exact h
        · rw [hs, List.all_append, h]; rfl
        · rw [hs, List.all_append, h]; rfl
        · rw [hs]
          exact all_updateFirst thinkingPred (chatThinkingUpd f.2)
            (fun s => s.status == .running || s.status == .completed)
            (fun s hq => hq) st.steps h
        · rw [hs]
          exact all_updateLast (chatResultPred f.2) (chatResultUpd f.2)
            (fun s => s.status == .running || s.status == .completed)
            (fun s _ => rfl) st.steps h
        · rw [hs]
          refine all_map_imp _ _ _ ?_ st.steps h
          intro s hq
          unfold chatCompleteUpd
          cases hst : s.status == .running
          · exact hq
          · rfl
      exact foldl_preserves _
        (fun st => (st.steps.all fun s => s.status == .running || s.status == .completed) = true)
        (fun s a hh => hstep s a hh) frames {} rfl
    rw [chatHandle_complete]
    refine all_map_imp _ _ _ ?_ (chatRun frames).steps hinv
    intro s hq
    unfold chatCompleteUpd
    cases hst : s.status == .running
    · have hc : s.status = .completed := by
        rw [hst, Bool.false_or] at hq
        exact eq_of_beq hq
      show (!(s.status == .running) && !(s.status == .pending)) = true
      rw [hc]
      rfl
    · rfl

/-- C9, confirmed: a label line followed by a data line whose payload
fails to parse contributes nothing to the decoder output, and decoding
continues on the remaining lines exactly as if scanning had just been
reset — so every well-formed frame after the malformed one in the same
buffer is still emitted, and no fault is raised (the decoder is a total
function). -/
theorem C9_theorem (p : List Char → Option Json) (l1 l2 : List Char)
    (rest : List (List Char)) (ev : List Char)
    (h1 : List.isPrefixOf (lc "event: ") l1 = true)
    (h2 : List.isPrefixOf (lc "event: ") l2 = false)
    (h3 : List.isPrefixOf (lc "data: ") l2 = true)
    (h4 : p (l2.drop 6) = none) :
    docDecodeLines p (l1 :: l2 :: rest) ev = docDecodeLines p rest [] := by
  rw [docDecodeLines_event p l1 _ ev h1]
  by_cases hd : l1.drop 7 = []
  · rw [docDecodeLines_skip p l2 rest _ h2 (fun hcon => hcon.2 hd), hd]
  · rw [docDecodeLines_data_fail p l2 rest _ h2 h3 hd h4]

/-- C9, witness: a malformed frame (`data: \x7b` does not parse) is
dropped and the following well-formed `status` frame in the same buffer
is still emitted. -/
theorem C9_witness :
    docDecodeLines testParse
        [lc "event: x", lc "data: \x7b", lc "event: status", lc "data: \x7b\x7d", []] [] =
      docDecodeLines testParse [lc "event: status", lc "data: \x7b\x7d", []] [] ∧
    docDecodeLines testParse [lc "event: status", lc "data: \x7b\x7d", []] [] =
      [(lc "status", Json.obj [])] :=
  ⟨C9_theorem testParse (lc "event: x") (lc "data: \x7b")
      [lc "event: status", lc "data: \x7b\x7d", []] [] rfl rfl rfl rfl, rfl⟩

/-- C10, confirmed: in the document path, a `tool_result` frame resolves
the most recently created running tool-call step — for ANY payload `d`,
i.e. regardless of the frame's `tool` or `id` fields — setting its status
to `completed` and its outputs from the frame, and leaving every other
step unchanged; when no tool-call step is running, the state is returned
unchanged (the dangling result is dropped without error). -/
theorem C10_theorem (st : DocState) (d : Json) :
    (∀ (pre : List AgentStep) (b : AgentStep) (post : List AgentStep),
      st.steps = pre ++ b :: post →
      runToolCallPred b = true →
      (post.all fun s => !(runToolCallPred s)) = true →
      b.id ∉ pre.map AgentStep.id →
      b.id ∉ post.map AgentStep.id →
      (docHandle "tool_result" d st).steps = pre ++ docResultUpd d b :: post) ∧
    ((st.steps.all fun s => !(runToolCallPred s)) = true →
      docHandle "tool_result" d st = st) := by
  constructor
  · intro pre b post hsteps hb hpost hpre hpostid
    have hnone : post.reverse.find? runToolCallPred = none := by
      rw [List.find?_eq_none]
      intro x hx hq
      rw [List.mem_reverse] at hx
      have hx2 := List.all_eq_true.mp hpost x hx
      rw [hq] at hx2
      exact absurd hx2 (by decide)
    have hfind : st.steps.reverse.find? runToolCallPred = some b := by
      rw [hsteps]
      simp [List.find?_append, hnone, List.find?_cons_of_pos _ hb]
    rw [docHandle_toolResult, hfind]
    show st.steps.map (fun s => if s.id == b.id then docResultUpd d s else s) =
      pre ++ docResultUpd d b :: post
    rw [hsteps, List.map_append, List.map_cons,
      map_update_id_eq_self b _ pre hpre, map_update_id_eq_self b _ post hpostid]
    have hbb : (b.id == b.id) = true := by simp
    show pre ++ (if (b.id == b.id) = true then docResultUpd d b else b) :: post =
      pre ++ docResultUpd d b :: post
    rw [if_pos hbb]
  · intro hall
    rw [docHandle_toolResult]
    have hfind : st.steps.reverse.find? runToolCallPred = none := by
      rw [List.find?_eq_none]
      intro x hx hq
      rw [List.mem_reverse] at hx
      have hx2 := List.all_eq_true.mp hall x hx
      rw [hq] at hx2
      exact absurd hx2 (by decide)
    rw [hfind]

/-- C10, witness: with two running tool-calls A and B, a `tool_result`
resolves B (the newest) and leaves A running. -/
theorem C10_witness :
    (docHandle "tool_result" c10D c10St).steps = [c10A] ++ docResultUpd c10D c10B :: [] :=
  (C10_theorem c10St c10D).1 [c10A] c10B [] rfl rfl rfl (by decide) (by decide)
